import Mathlib

/-!
Verification of the PDF-ingestion pipeline (`flow_manager.py`, `vector_db_service.py`,
`models.py`) against its specification.  The Python source is shallowly embedded:

* `DocumentChunk` / `PDFProcessingResult` mirror the pydantic models in `models.py`
  (`Optional[str]` becomes `Option String`, python `int` becomes `Int`).
* `VectorDBService.upload_chunks` is pure data shaping plus a single vector-store
  write; it is embedded as `uploadChunks`, which returns the post-call states of the
  chunk objects (the source mutates them in place) together with the list of
  `add_documents` store calls it issues (the source issues exactly one).
* `FlowManager` talks to three collaborators (GCS, the chunking agent, Firestore).
  They are modelled by a record `Collab` of oracle functions returning `Except`:
  a raised Python exception is an `Except.error`.  The pipeline code installs no
  exception handler, so errors pass through unchanged.
-/

/-- Python exceptions, as a single inductive.  `collaborator` stands for any raw
exception raised by an external client (GCS, Vertex AI, Firestore).  The remaining
constructors are modelled from the spec: the spec names dedicated `DiscoveryError`,
`AcquisitionError`, `ChunkingError` and `PersistenceError` types, but no such types
are defined anywhere in the source; they exist here only so that claims about them
can be stated. -/
inductive PyExc where
  | collaborator (msg : String)
  | discoveryError (msg : String)
  | acquisitionError (msg : String)
  | chunkingError (msg : String)
  | persistenceError (msg : String)
deriving DecidableEq

/-- `models.DocumentChunk` (pydantic).  Field order and optionality follow the source. -/
structure DocumentChunk where
  chunk_id : Int
  document_date : Option String := none
  section_type : String
  content : String
  source_file : Option String := none
deriving DecidableEq

/-- `models.PDFProcessingResult` (pydantic). -/
structure PDFProcessingResult where
  file_name : String
  chunks : List DocumentChunk
deriving DecidableEq

/-- `PDFProcessingResult.total_chunks`, the derived property `len(self.chunks)`. -/
def PDFProcessingResult.total_chunks (r : PDFProcessingResult) : Nat :=
  r.chunks.length

/-- A LangChain `Document` as built in `upload_chunks`: `page_content` plus a
metadata dict whose keys are exactly `source_file`, `chunk_id`, `document_date`,
`section_type`. -/
structure LCDocument where
  page_content : String
  meta_source_file : Option String
  meta_chunk_id : Int
  meta_document_date : Option String
  meta_section_type : String
deriving DecidableEq

/-- Python truthiness test `not chunk.source_file` on an `Optional[str]`:
true for `None` and for the empty string. -/
def pyFalsyStr : Option String → Bool
  | none => true
  | some s => s = ""

/-- Python `s.replace(a, b)` for one-character `a`, `b`: a character-wise map. -/
def pyReplaceChar (s : String) (a b : Char) : String :=
  String.mk (s.data.map (fun c => if c = a then b else c))

/-- The `doc_id` computed in `upload_chunks`:
`f"{file_name}_{chunk.chunk_id}".replace("/", "_").replace(".", "_")`. -/
def docId (file_name : String) (chunk_id : Int) : String :=
  pyReplaceChar (pyReplaceChar (file_name ++ "_" ++ toString chunk_id) '/' '_') '.' '_'

/-- The in-place backfill in `upload_chunks`:
`if not chunk.source_file: chunk.source_file = file_name`. -/
def backfillChunk (file_name : String) (c : DocumentChunk) : DocumentChunk :=
  if pyFalsyStr c.source_file then { c with source_file := some file_name } else c

/-- The LangChain `Document` built in `upload_chunks` from one (already
backfilled) chunk. -/
def mkDocument (c : DocumentChunk) : LCDocument :=
  { page_content := c.content
    meta_source_file := c.source_file
    meta_chunk_id := c.chunk_id
    meta_document_date := c.document_date
    meta_section_type := c.section_type }

/-- Observable outcome of `VectorDBService.upload_chunks`: the post-call states of
the chunk objects (mutated in place in the source) and the list of
`add_documents(documents, ids)` store calls issued. -/
structure UploadOutcome where
  chunks : List DocumentChunk
  calls : List (List LCDocument × List String)
deriving DecidableEq

/-- `VectorDBService.upload_chunks(chunks, file_name)`.  The source loops once over
`chunks`, backfilling `source_file`, collecting `doc_id`s and building one LangChain
`Document` per chunk, then issues a single `add_documents(documents, ids)` call. -/
def uploadChunks (chunks : List DocumentChunk) (file_name : String) : UploadOutcome :=
  let updated := chunks.map (backfillChunk file_name)
  let ids := chunks.map (fun c => docId file_name c.chunk_id)
  let documents := updated.map mkDocument
  { chunks := updated, calls := [(documents, ids)] }

/-- Python `s.split(sep)` for a one-character separator, on the character list.
`splitChar sep l` never returns `[]` (Python `"".split("/") == [""]`). -/
def splitChar (sep : Char) : List Char → List (List Char)
  | [] => [[]]
  | c :: rest =>
    match splitChar sep rest with
    | [] => [[]]
    | s :: ss => if c = sep then [] :: s :: ss else (c :: s) :: ss

/-- `blob_name.split("/")[-1]` from `FlowManager._process_single_pdf`: the last
path segment of a blob name.  `split` never yields an empty list, so Python's
`[-1]` is total; `getLastD` with a dummy default models it. -/
def lastSegment (blob_name : String) : String :=
  String.mk ((splitChar '/' blob_name.data).getLastD [])

/-- Python `s.lower()`, modelled character-wise with `Char.toLower`
(ASCII case folding, which covers the `.pdf` / `.PDF` distinction the code cares
about). -/
def pyLower (s : String) : String :=
  String.mk (s.data.map Char.toLower)

/-- The filter predicate of `FlowManager._list_pdfs`:
`b.name.lower().endswith(".pdf")`. -/
def isPdfName (n : String) : Bool :=
  List.isSuffixOf ".pdf".data (pyLower n).data

/-- The three external collaborators of `FlowManager`, as oracles.  `listBlobs`
models iterating `bucket.list_blobs(...)` for the blob names; `downloadBlob`
models `blob.download_as_bytes()` (bytes as `List Nat`); `processPdf` models
`PDFAgent.process_pdf(pdf_bytes, file_name)`; `addDocuments` models
`FirestoreVectorStore.add_documents(documents, ids)`.  An `Except.error` is a
raised exception. -/
structure Collab where
  listBlobs : Except PyExc (List String)
  downloadBlob : String → Except PyExc (List Nat)
  processPdf : List Nat → String → Except PyExc (List DocumentChunk)
  addDocuments : List LCDocument → List String → Except PyExc Unit

/-- `FlowManager._list_pdfs`: list blob names, keep those whose lower-cased name
ends in `.pdf`.  No exception handler: a listing failure propagates. -/
def listPdfsOf (env : Collab) : Except PyExc (List String) :=
  match env.listBlobs with
  | .error e => .error e
  | .ok names => .ok (names.filter isPdfName)

/-- Issue the store calls recorded in an `UploadOutcome` (the `add_documents`
invocation at the end of `upload_chunks`; a Firestore failure propagates). -/
def runStoreCalls (env : Collab) : List (List LCDocument × List String) → Except PyExc Unit
  | [] => .ok ()
  | (documents, ids) :: rest =>
    match env.addDocuments documents ids with
    | .error e => .error e
    | .ok _ => runStoreCalls env rest

/-- `FlowManager._process_single_pdf(blob_name)`: download, chunk, build the
`PDFProcessingResult`, upload.  The result is constructed before the upload, but
`upload_chunks` mutates the chunk objects it shares with the result, so the
returned result carries the post-upload (backfilled) chunk states.  Exceptions
propagate at every stage (explicit `match` is the `Except` image of Python's
unhandled exceptions). -/
def processSinglePdf (env : Collab) (blob_name : String) :
    Except PyExc PDFProcessingResult :=
  let file_name := lastSegment blob_name
  match env.downloadBlob blob_name with
  | .error e => .error e
  | .ok pdf_bytes =>
    match env.processPdf pdf_bytes file_name with
    | .error e => .error e
    | .ok chunks =>
      let out := uploadChunks chunks file_name
      match runStoreCalls env out.calls with
      | .error e => .error e
      | .ok _ => .ok { file_name := file_name, chunks := out.chunks }

/-- The `for` loop of `process_all_pdfs`: process each blob in order, appending
each result; an exception anywhere aborts the loop and propagates. -/
def processLoop (env : Collab) : List String → Except PyExc (List PDFProcessingResult)
  | [] => .ok []
  | blob_name :: rest =>
    match processSinglePdf env blob_name with
    | .error e => .error e
    | .ok result =>
      match processLoop env rest with
      | .error e => .error e
      | .ok results => .ok (result :: results)

/-- `FlowManager.process_all_pdfs`: list the PDFs, return `[]` when none were
found, otherwise run the per-document loop and return the accumulated results. -/
def processAllPdfs (env : Collab) : Except PyExc (List PDFProcessingResult) :=
  match listPdfsOf env with
  | .error e => .error e
  | .ok pdf_files =>
    if pdf_files.isEmpty then .ok []
    else processLoop env pdf_files

/-- The spec-side discovery predicate: the identifier ends in `.pdf`
case-insensitively, i.e. its lower-cased character list has `['.','p','d','f']`
as a suffix. -/
def EndsInPdfCI (n : String) : Prop :=
  List.IsSuffix ('.' :: 'p' :: 'd' :: 'f' :: []) (n.data.map Char.toLower)

instance (n : String) : Decidable (EndsInPdfCI n) := by
  unfold EndsInPdfCI; infer_instance

/-- Does the spec's `DiscoveryError` stage tag appear on an exception value? -/
def isDiscoveryError : PyExc → Bool
  | .discoveryError _ => true
  | _ => false

/-- Most-significant-first decimal digit characters of a natural number: the
well-founded reference form of `Nat.toDigitsCore`, used to reason about
`Nat.repr` (and hence about the chunk-id part of `docId`). -/
def decDigits (n : Nat) : List Char :=
  if h : n / 10 = 0 then [Nat.digitChar (n % 10)]
  else decDigits (n / 10) ++ [Nat.digitChar (n % 10)]
termination_by n
decreasing_by omega

/-- A concrete fully-succeeding environment: one matching PDF, one ignored
text file, a chunking agent returning a single chunk with unset source_file. -/
def envOk : Collab :=
  { listBlobs := .ok ["a/report.pdf", "a/notes.txt"]
    downloadBlob := fun _ => .ok [37, 80, 68, 70]
    processPdf := fun _ _ =>
      .ok [{ chunk_id := 0, document_date := none, section_type := "Header and Agenda"
             content := "shalom", source_file := none }]
    addDocuments := fun _ _ => .ok () }

/-- A concrete environment whose mixed listing exercises the discovery filter. -/
def envMixed : Collab :=
  { listBlobs := .ok ["a/report.pdf", "a/notes.txt", "a/minutes.PDF"]
    downloadBlob := fun _ => .ok []
    processPdf := fun _ _ => .ok []
    addDocuments := fun _ _ => .ok () }

/-- A concrete environment whose download of the only PDF raises. -/
def envDownloadFail : Collab :=
  { listBlobs := .ok ["a.pdf"]
    downloadBlob := fun _ => .error (.collaborator "io error")
    processPdf := fun _ _ => .ok []
    addDocuments := fun _ _ => .ok () }

/-- A concrete environment whose blob listing itself raises. -/
def envListFail : Collab :=
  { listBlobs := .error (.collaborator "listing failed")
    downloadBlob := fun _ => .ok []
    processPdf := fun _ _ => .ok []
    addDocuments := fun _ _ => .ok () }

/-- The character map of `.replace("/", "_")`. -/
def replSlash (c : Char) : Char := if c = '/' then '_' else c

/-- The character map of `.replace(".", "_")`. -/
def replDot (c : Char) : Char := if c = '.' then '_' else c

theorem backfillChunk_chunk_id (fn : String) (c : DocumentChunk) :
    (backfillChunk fn c).chunk_id = c.chunk_id := by
  unfold backfillChunk; split <;> rfl

theorem backfillChunk_document_date (fn : String) (c : DocumentChunk) :
    (backfillChunk fn c).document_date = c.document_date := by
  unfold backfillChunk; split <;> rfl

theorem backfillChunk_section_type (fn : String) (c : DocumentChunk) :
    (backfillChunk fn c).section_type = c.section_type := by
  unfold backfillChunk; split <;> rfl

theorem backfillChunk_content (fn : String) (c : DocumentChunk) :
    (backfillChunk fn c).content = c.content := by
  unfold backfillChunk; split <;> rfl

theorem uploadChunks_chunks_eq (chunks : List DocumentChunk) (fn : String) :
    (uploadChunks chunks fn).chunks = chunks.map (backfillChunk fn) := rfl

/-- C4 counterexample: a chunk whose `source_file` is pre-set to the empty string
is non-null (hence "already set"), yet `upload_chunks` overwrites it with the
display name. -/
theorem c4_preset_empty_overwritten :
    ((uploadChunks [{ chunk_id := 0, document_date := none, section_type := "Topic Discussion", content := "text", source_file := some "" }] "doc.pdf").chunks).map (fun c => c.source_file)
      = [some "doc.pdf"] ∧
    (some "" : Option String) ≠ none ∧
    (some "doc.pdf" : Option String) ≠ some "" :=
  ⟨rfl, by decide, by decide⟩

/-- C4 (amended): for every chunk passed to `upload_chunks`, if its `source_file`
is null or the empty string, after the call it equals the document's display name;
if it was pre-set to a non-empty string, it is not overwritten. -/
theorem c4_backfill_amended (chunks : List DocumentChunk) (file_name : String)
    (i : Nat) (c c2 : DocumentChunk) (h1 : chunks[i]? = some c)
    (h2 : (uploadChunks chunks file_name).chunks[i]? = some c2) :
    ((c.source_file = none ∨ c.source_file = some "") →
      c2.source_file = some file_name) ∧
    (∀ s, s ≠ "" → c.source_file = some s → c2.source_file = some s) := by
  rw [uploadChunks_chunks_eq, List.getElem?_map, h1] at h2
  have hc2 : c2 = backfillChunk file_name c := by
    simpa using h2.symm
  subst hc2
  constructor
  · rintro (hnull | hempty)
    · simp [backfillChunk, pyFalsyStr, hnull]
    · simp [backfillChunk, pyFalsyStr, hempty]
  · intro s hs hset
    simp [backfillChunk, pyFalsyStr, hset, hs]

/-- Witness for the amended C4 at a concrete chunk with a pre-set non-empty
`source_file`. -/
theorem c4_backfill_amended_witness :
    ({ chunk_id := 7, document_date := none, section_type := "Topic Discussion", content := "y", source_file := some "orig.pdf" } : DocumentChunk).source_file
      = some "orig.pdf" :=
  (c4_backfill_amended
    [{ chunk_id := 7, document_date := none, section_type := "Topic Discussion", content := "y", source_file := some "orig.pdf" }] "doc.pdf" 0 _ _ rfl rfl).2
    "orig.pdf" (by decide) rfl

/-- C5: the storage key is a pure function of `(display_name, chunk_id)`, and
`display_name = "2024/jan.pdf"`, `chunk_id = 3` yields exactly `"2024_jan_pdf_3"`
(also as the id actually carried by the single upsert call). -/
theorem c5_key_determinism :
    (∀ d1 k1 d2 k2, d1 = d2 → k1 = k2 → docId d1 k1 = docId d2 k2) ∧
    docId "2024/jan.pdf" 3 = "2024_jan_pdf_3" ∧
    ((uploadChunks [{ chunk_id := 3, document_date := none, section_type := "t", content := "x", source_file := none }] "2024/jan.pdf").calls).map
      (fun call => call.2) = [["2024_jan_pdf_3"]] := by
  refine ⟨?_, by decide, by decide⟩
  intro d1 k1 d2 k2 h1 h2
  rw [h1, h2]

theorem c5_key_determinism_witness :
    docId "2024/jan.pdf" 3 = docId "2024/jan.pdf" 3 :=
  c5_key_determinism.1 "2024/jan.pdf" 3 "2024/jan.pdf" 3 rfl rfl

/-- C6 counterexample: two distinct `(display_name, chunk_id)` pairs whose derived
storage keys coincide, because `/`, `.` and `_` are conflated by the sanitiser. -/
theorem c6_key_collision :
    docId "a.b" 0 = docId "a_b" 0 ∧ ("a.b", (0 : Int)) ≠ ("a_b", (0 : Int)) :=
  ⟨rfl, by decide⟩

/-- C8: `upload_chunks` issues exactly one upsert call carrying one record per
chunk; each record's text is the chunk's content verbatim, and its metadata is
exactly the chunk's `source_file` (as persisted, i.e. after backfill),
`chunk_id`, `document_date` and `section_type`. -/
theorem c8_single_upsert_shape (chunks : List DocumentChunk) (file_name : String) :
    ∃ documents ids,
      (uploadChunks chunks file_name).calls = [(documents, ids)] ∧
      documents.length = chunks.length ∧
      documents.map (fun d => d.page_content) = chunks.map (fun c => c.content) ∧
      documents.map (fun d => d.meta_chunk_id) = chunks.map (fun c => c.chunk_id) ∧
      documents.map (fun d => d.meta_document_date)
        = chunks.map (fun c => c.document_date) ∧
      documents.map (fun d => d.meta_section_type)
        = chunks.map (fun c => c.section_type) ∧
      documents.map (fun d => d.meta_source_file)
        = ((uploadChunks chunks file_name).chunks).map (fun c => c.source_file) := by
  refine ⟨_, _, rfl, by simp [uploadChunks], ?_, ?_, ?_, ?_, ?_⟩ <;>
    simp only [uploadChunks, List.map_map, uploadChunks_chunks_eq] <;>
    exact List.map_congr_left fun c _ => by
      simp [Function.comp, mkDocument, backfillChunk_content, backfillChunk_chunk_id,
        backfillChunk_document_date, backfillChunk_section_type]

/-- C9: `upload_chunks` keeps the chunk list's length and order, and leaves every
field except `source_file` unchanged on every chunk. -/
theorem c9_upload_frame (chunks : List DocumentChunk) (file_name : String) :
    (uploadChunks chunks file_name).chunks.length = chunks.length ∧
    (uploadChunks chunks file_name).chunks.map (fun c => c.chunk_id)
      = chunks.map (fun c => c.chunk_id) ∧
    (uploadChunks chunks file_name).chunks.map (fun c => c.document_date)
      = chunks.map (fun c => c.document_date) ∧
    (uploadChunks chunks file_name).chunks.map (fun c => c.section_type)
      = chunks.map (fun c => c.section_type) ∧
    (uploadChunks chunks file_name).chunks.map (fun c => c.content)
      = chunks.map (fun c => c.content) := by
  refine ⟨by simp [uploadChunks_chunks_eq], ?_, ?_, ?_, ?_⟩ <;>
    rw [uploadChunks_chunks_eq, List.map_map] <;>
    exact List.map_congr_left fun c _ => by
      simp [Function.comp, backfillChunk_content, backfillChunk_chunk_id,
        backfillChunk_document_date, backfillChunk_section_type]

/-- C10: `upload_chunks` treats an empty-string `source_file` as unset: the guard
is Python falsiness, so such a chunk leaves the call with `source_file` equal to
the document's display name. -/
theorem c10_empty_source_file_backfilled (chunks : List DocumentChunk)
    (file_name : String) (i : Nat) (c c2 : DocumentChunk)
    (h1 : chunks[i]? = some c)
    (h2 : (uploadChunks chunks file_name).chunks[i]? = some c2)
    (h3 : c.source_file = some "") :
    c2.source_file = some file_name := by
  rw [uploadChunks_chunks_eq, List.getElem?_map, h1] at h2
  have hc2 : c2 = backfillChunk file_name c := by
    simpa using h2.symm
  subst hc2
  simp [backfillChunk, pyFalsyStr, h3]

/-- Witness for C10 at a concrete chunk with `source_file = some ""`. -/
theorem c10_empty_source_file_backfilled_witness :
    ({ chunk_id := 0, document_date := none, section_type := "t", content := "x", source_file := some "doc.pdf" } : DocumentChunk).source_file
      = some "doc.pdf" :=
  c10_empty_source_file_backfilled
    [{ chunk_id := 0, document_date := none, section_type := "t", content := "x", source_file := some "" }] "doc.pdf" 0 _ _ rfl rfl rfl

theorem processSinglePdf_file_name (env : Collab) (b : String)
    (r : PDFProcessingResult) (h : processSinglePdf env b = Except.ok r) :
    r.file_name = lastSegment b := by
  unfold processSinglePdf at h
  cases hd : env.downloadBlob b with
  | error e => rw [hd] at h; cases h
  | ok pdf_bytes =>
    rw [hd] at h
    dsimp only at h
    cases hc : env.processPdf pdf_bytes (lastSegment b) with
    | error e => rw [hc] at h; cases h
    | ok chunks =>
      rw [hc] at h
      dsimp only at h
      cases ha : runStoreCalls env (uploadChunks chunks (lastSegment b)).calls with
      | error e => rw [ha] at h; cases h
      | ok u =>
        rw [ha] at h
        dsimp only at h
        cases h
        rfl

theorem processLoop_ok_map (env : Collab) :
    ∀ (bs : List String) (rs : List PDFProcessingResult),
      processLoop env bs = Except.ok rs →
      rs.map (fun r => r.file_name) = bs.map lastSegment := by
  intro bs
  induction bs with
  | nil => intro rs h; cases h; rfl
  | cons b rest ih =>
    intro rs h
    unfold processLoop at h
    cases hs : processSinglePdf env b with
    | error e => rw [hs] at h; cases h
    | ok result =>
      rw [hs] at h
      dsimp only at h
      cases hl : processLoop env rest with
      | error e => rw [hl] at h; cases h
      | ok results =>
        rw [hl] at h
        dsimp only at h
        cases h
        simp only [List.map_cons]
        exact congrArg₂ (· :: ·) (processSinglePdf_file_name env b result hs) (ih results hl)

/-- C1: in a fully successful run, `process_all_pdfs` returns one result per
discovered document, in discovery order, and the i-th result's `file_name` is the
last path segment of the i-th discovered blob name (stated as equality of the
mapped lists, which fixes both length and order). -/
theorem c1_processAllPdfs_order (env : Collab) (results : List PDFProcessingResult)
    (h : processAllPdfs env = Except.ok results) :
    ∃ pdf_files, listPdfsOf env = Except.ok pdf_files ∧
      results.map (fun r => r.file_name) = pdf_files.map lastSegment := by
  unfold processAllPdfs at h
  cases hl : listPdfsOf env with
  | error e => rw [hl] at h; cases h
  | ok pdf_files =>
    rw [hl] at h
    dsimp only at h
    refine ⟨pdf_files, rfl, ?_⟩
    by_cases he : pdf_files.isEmpty
    · rw [if_pos he] at h
      cases h
      rw [List.isEmpty_iff.mp he]
      rfl
    · rw [if_neg he] at h
      exact processLoop_ok_map env pdf_files results h

/-- Witness for C1: a concrete fully-succeeding run over `envOk`. -/
theorem c1_processAllPdfs_order_witness :
    ∃ pdf_files, listPdfsOf envOk = Except.ok pdf_files ∧
      [({ file_name := "report.pdf", chunks := [{ chunk_id := 0, document_date := none, section_type := "Header and Agenda", content := "shalom", source_file := some "report.pdf" }] } : PDFProcessingResult)].map (fun r => r.file_name)
        = pdf_files.map lastSegment :=
  c1_processAllPdfs_order envOk
    [{ file_name := "report.pdf", chunks := [{ chunk_id := 0, document_date := none, section_type := "Header and Agenda", content := "shalom", source_file := some "report.pdf" }] }]
    rfl

/-- C2: discovery returns exactly the listed identifiers whose name ends in
`.pdf` case-insensitively (`EndsInPdfCI`), as a filter of the listing (hence in
listing order), and returns `ok []` rather than an error when nothing matches. -/
theorem c2_discovery_filter (env : Collab) (names : List String)
    (h : env.listBlobs = Except.ok names) :
    listPdfsOf env = Except.ok (names.filter isPdfName) ∧
    (∀ n, isPdfName n = true ↔ EndsInPdfCI n) ∧
    ((∀ n ∈ names, ¬ EndsInPdfCI n) → listPdfsOf env = Except.ok []) := by
  have hiff : ∀ n, isPdfName n = true ↔ EndsInPdfCI n := by
    intro n
    unfold isPdfName EndsInPdfCI pyLower
    exact List.isSuffixOf_iff_suffix
  refine ⟨?_, hiff, ?_⟩
  · unfold listPdfsOf
    rw [h]
  · intro hnone
    unfold listPdfsOf
    rw [h]
    dsimp only
    have : names.filter isPdfName = [] :=
      List.filter_eq_nil_iff.mpr fun n hn => by
        intro hp
        exact hnone n hn ((hiff n).mp hp)
    rw [this]

/-- Witness for C2 on a concrete mixed listing: `.pdf` and `.PDF` survive the
filter in order, `.txt` does not. -/
theorem c2_discovery_filter_witness :
    listPdfsOf envMixed
      = Except.ok (["a/report.pdf", "a/notes.txt", "a/minutes.PDF"].filter isPdfName) ∧
    ["a/report.pdf", "a/notes.txt", "a/minutes.PDF"].filter isPdfName
      = ["a/report.pdf", "a/minutes.PDF"] :=
  ⟨(c2_discovery_filter envMixed ["a/report.pdf", "a/notes.txt", "a/minutes.PDF"] rfl).1,
    by decide⟩

theorem processLoop_error_of (env : Collab) (b : String) (e : PyExc)
    (hb : processSinglePdf env b = Except.error e) :
    ∀ (pre : List String),
      (∀ b2 ∈ pre, ∃ r, processSinglePdf env b2 = Except.ok r) →
      ∀ (post : List String), processLoop env (pre ++ b :: post) = Except.error e := by
  intro pre
  induction pre with
  | nil =>
    intro _ post
    rw [List.nil_append]
    unfold processLoop
    rw [hb]
  | cons a rest ih =>
    intro hpre post
    obtain ⟨r, hr⟩ := hpre a (List.mem_cons_self a rest)
    have hrest : ∀ b2 ∈ rest, ∃ r2, processSinglePdf env b2 = Except.ok r2 :=
      fun b2 hb2 => hpre b2 (List.mem_cons_of_mem a hb2)
    rw [List.cons_append]
    unfold processLoop
    rw [hr]
    dsimp only
    rw [ih hrest post]

/-- C3: if processing any discovered document raises (download, chunking or
persistence), `process_all_pdfs` propagates that error: it returns `error e`,
hence no result list at all — neither the accumulated earlier results nor any
result for later documents. -/
theorem c3_fail_fast (env : Collab) (pre post : List String) (b : String)
    (e : PyExc) (hlist : listPdfsOf env = Except.ok (pre ++ b :: post))
    (hpre : ∀ b2 ∈ pre, ∃ r, processSinglePdf env b2 = Except.ok r)
    (hb : processSinglePdf env b = Except.error e) :
    processAllPdfs env = Except.error e := by
  unfold processAllPdfs
  rw [hlist]
  dsimp only
  have hne : (pre ++ b :: post).isEmpty = false := by
    cases pre <;> rfl
  simp only [hne, Bool.false_eq_true, if_false]
  exact processLoop_error_of env b e hb pre hpre post

/-- Witness for C3: over `envDownloadFail` the single document's download raises
and the raw error is the run's outcome. -/
theorem c3_fail_fast_witness :
    processAllPdfs envDownloadFail = Except.error (PyExc.collaborator "io error") :=
  c3_fail_fast envDownloadFail [] [] "a.pdf" (PyExc.collaborator "io error") rfl
    (fun b2 hb2 => absurd hb2 (List.not_mem_nil b2)) rfl

/-- C7 counterexample: when the listing call raises, discovery surfaces the
collaborator's raw exception unchanged; it is not a `DiscoveryError`-tagged
value (no such dedicated error types exist in the source). -/
theorem c7_raw_error_escapes :
    listPdfsOf envListFail = Except.error (PyExc.collaborator "listing failed") ∧
    isDiscoveryError (PyExc.collaborator "listing failed") = false :=
  ⟨rfl, rfl⟩

/-- C7 (amended): a failure of the underlying listing call propagates to the
caller as the collaborator's own exception value, unchanged — discovery (and the
whole run) fails with the raw error, not with a dedicated error type. -/
theorem c7_raw_error_propagation (env : Collab) (e : PyExc)
    (h : env.listBlobs = Except.error e) :
    listPdfsOf env = Except.error e ∧ processAllPdfs env = Except.error e := by
  have hl : listPdfsOf env = Except.error e := by
    unfold listPdfsOf
    rw [h]
  refine ⟨hl, ?_⟩
  unfold processAllPdfs
  rw [hl]

/-- Witness for the amended C7 at the concrete failing environment. -/
theorem c7_raw_error_propagation_witness :
    listPdfsOf envListFail = Except.error (PyExc.collaborator "listing failed") ∧
    processAllPdfs envListFail = Except.error (PyExc.collaborator "listing failed") :=
  c7_raw_error_propagation envListFail (PyExc.collaborator "listing failed") rfl

theorem digitChar_val (d : Nat) (h : d < 10) : (Nat.digitChar d).toNat = 48 + d := by
  interval_cases d <;> decide

theorem digitChar_ne (d : Nat) (h : d < 10) :
    Nat.digitChar d ≠ '/' ∧ Nat.digitChar d ≠ '.' ∧ Nat.digitChar d ≠ '-' := by
  interval_cases d <;> exact ⟨by decide, by decide, by decide⟩

theorem decDigits_ne_nil (n : Nat) : decDigits n ≠ [] := by
  unfold decDigits
  split
  · simp
  · simp

theorem decDigits_mem (n : Nat) :
    ∀ ch ∈ decDigits n, ∃ d, d < 10 ∧ ch = Nat.digitChar d := by
  induction n using Nat.strong_induction_on with
  | _ n ih =>
    intro ch hch
    unfold decDigits at hch
    split at hch
    · rw [List.mem_singleton] at hch
      exact ⟨n % 10, Nat.mod_lt n (by omega), hch⟩
    · rename_i h
      rw [List.mem_append, List.mem_singleton] at hch
      rcases hch with hch | hch
      · exact ih (n / 10) (by omega) ch hch
      · exact ⟨n % 10, Nat.mod_lt n (by omega), hch⟩

theorem decDigits_foldl (n : Nat) : ∀ a : Nat,
    (decDigits n).foldl (fun acc ch => acc * 10 + (ch.toNat - 48)) a
      = a * 10 ^ (decDigits n).length + n := by
  induction n using Nat.strong_induction_on with
  | _ n ih =>
    intro a
    unfold decDigits
    split
    · rename_i h
      simp only [List.foldl_cons, List.foldl_nil, List.length_cons, List.length_nil]
      rw [digitChar_val (n % 10) (Nat.mod_lt n (by omega))]
      rw [pow_one]
      omega
    · rename_i h
      rw [List.foldl_append]
      simp only [List.foldl_cons, List.foldl_nil, List.length_append, List.length_cons,
        List.length_nil]
      rw [ih (n / 10) (by omega) a]
      rw [digitChar_val (n % 10) (Nat.mod_lt n (by omega))]
      rw [pow_succ]
      have hstep : (a * 10 ^ (decDigits (n / 10)).length + n / 10) * 10 + (48 + n % 10 - 48)
          = a * (10 ^ (decDigits (n / 10)).length * 10) + (10 * (n / 10) + n % 10) := by
        have h48 : 48 + n % 10 - 48 = n % 10 := by omega
        rw [h48]
        ring
      rw [hstep, Nat.div_add_mod]

theorem decDigits_inj (m n : Nat) (h : decDigits m = decDigits n) : m = n := by
  have hm := decDigits_foldl m 0
  have hn := decDigits_foldl n 0
  rw [h] at hm
  simp only [Nat.zero_mul, Nat.zero_add] at hm hn
  rw [hm] at hn
  exact hn

theorem decDigits_small (n : Nat) (h0 : n / 10 = 0) :
    decDigits n = [Nat.digitChar (n % 10)] := by
  rw [decDigits.eq_def, dif_pos h0]

theorem decDigits_step (n : Nat) (h0 : ¬ n / 10 = 0) :
    decDigits n = decDigits (n / 10) ++ [Nat.digitChar (n % 10)] := by
  rw [decDigits.eq_def, dif_neg h0]

theorem toDigitsCore_eq_decDigits :
    ∀ (f n : Nat) (ds : List Char), n < f →
      Nat.toDigitsCore 10 f n ds = decDigits n ++ ds := by
  intro f
  induction f with
  | zero => intro n ds h; exact absurd h (Nat.not_lt_zero n)
  | succ f ih =>
    intro n ds h
    unfold Nat.toDigitsCore
    dsimp only
    by_cases h0 : n / 10 = 0
    · rw [if_pos h0, decDigits_small n h0]
      rfl
    · rw [if_neg h0, ih (n / 10) (Nat.digitChar (n % 10) :: ds) (by omega),
        decDigits_step n h0, List.append_assoc]
      rfl

theorem natRepr_data (n : Nat) : (Nat.repr n).data = decDigits n := by
  show (List.asString (Nat.toDigitsCore 10 (n + 1) n [])).data = decDigits n
  rw [toDigitsCore_eq_decDigits (n + 1) n [] (Nat.lt_succ_self n), List.append_nil]
  rfl

theorem intToString_ofNat_data (m : Nat) :
    (toString (Int.ofNat m)).data = decDigits m := by
  show (Nat.repr m).data = decDigits m
  exact natRepr_data m

theorem intToString_negSucc_data (m : Nat) :
    (toString (Int.negSucc m)).data = '-' :: decDigits (m + 1) := by
  show (("-" : String) ++ Nat.repr (m + 1)).data = '-' :: decDigits (m + 1)
  rw [String.data_append, natRepr_data]
  rfl

theorem decDigits_head_ne_dash (m : Nat) (t : List Char)
    (ht : decDigits m = '-' :: t) : False := by
  have hch : ('-' : Char) ∈ decDigits m := by
    rw [ht]
    exact List.mem_cons_self _ _
  obtain ⟨d, hdlt, hde⟩ := decDigits_mem m _ hch
  exact (digitChar_ne d hdlt).2.2 hde.symm

theorem intToString_inj (k k2 : Int) (h : toString k = toString k2) : k = k2 := by
  have hd : (toString k).data = (toString k2).data := congrArg String.data h
  cases k with
  | ofNat m =>
    cases k2 with
    | ofNat m2 =>
      rw [intToString_ofNat_data, intToString_ofNat_data] at hd
      exact congrArg Int.ofNat (decDigits_inj m m2 hd)
    | negSucc m2 =>
      rw [intToString_ofNat_data, intToString_negSucc_data] at hd
      exact absurd hd fun hd => decDigits_head_ne_dash m _ hd
  | negSucc m =>
    cases k2 with
    | ofNat m2 =>
      rw [intToString_negSucc_data, intToString_ofNat_data] at hd
      exact absurd hd.symm fun hd => decDigits_head_ne_dash m2 _ hd
    | negSucc m2 =>
      rw [intToString_negSucc_data, intToString_negSucc_data] at hd
      injection hd with _ ht
      have := decDigits_inj (m + 1) (m2 + 1) ht
      exact congrArg Int.negSucc (by omega)

theorem intToString_mem (k : Int) :
    ∀ ch ∈ (toString k).data, ch ≠ '/' ∧ ch ≠ '.' := by
  cases k with
  | ofNat m =>
    intro ch hch
    rw [intToString_ofNat_data] at hch
    obtain ⟨d, hdlt, hde⟩ := decDigits_mem m ch hch
    subst hde
    exact ⟨(digitChar_ne d hdlt).1, (digitChar_ne d hdlt).2.1⟩
  | negSucc m =>
    intro ch hch
    rw [intToString_negSucc_data] at hch
    rcases List.mem_cons.mp hch with h | h
    · subst h
      exact ⟨by decide, by decide⟩
    · obtain ⟨d, hdlt, hde⟩ := decDigits_mem (m + 1) ch h
      subst hde
      exact ⟨(digitChar_ne d hdlt).1, (digitChar_ne d hdlt).2.1⟩

theorem docId_data_split (d : String) (kk : Int) :
    (docId d kk).data = ((d.data.map replSlash).map replDot)
      ++ '_' :: (((toString kk).data.map replSlash).map replDot) := by
  have h1 : (docId d kk).data
      = ((d.data ++ '_' :: (toString kk).data).map replSlash).map replDot := by
    show (((d.data ++ ('_' :: [])) ++ (toString kk).data).map replSlash).map replDot = _
    rw [List.append_assoc]
    rfl
  rw [h1, List.map_append, List.map_append, List.map_cons, List.map_cons]
  rfl

theorem toStringInt_map_repl (kk : Int) :
    ((toString kk).data.map replSlash).map replDot = (toString kk).data := by
  have ha : (toString kk).data.map replSlash = (toString kk).data := by
    rw [show (toString kk).data.map replSlash = (toString kk).data.map id from
      List.map_congr_left fun ch hch => by
        simp [replSlash, (intToString_mem kk ch hch).1]]
    exact List.map_id _
  rw [ha]
  rw [show (toString kk).data.map replDot = (toString kk).data.map id from
    List.map_congr_left fun ch hch => by
      simp [replDot, (intToString_mem kk ch hch).2]]
  exact List.map_id _

/-- C6 (amended): the key derivation is injective in `chunk_id` for a fixed
`display_name`: two chunks of the same document with distinct chunk ids always
receive distinct storage keys (cross-document collisions do occur, see the
counterexample). -/
theorem c6_docId_injective_same_display (d : String) (k k2 : Int)
    (h : docId d k = docId d k2) : k = k2 := by
  apply intToString_inj
  apply String.ext
  have hdd := congrArg String.data h
  rw [docId_data_split, docId_data_split] at hdd
  have hc := List.append_cancel_left hdd
  injection hc with _ ht
  rw [toStringInt_map_repl, toStringInt_map_repl] at ht
  exact ht

/-- Witness for the amended C6: the theorem applied at a concrete display name
and chunk id. -/
theorem c6_docId_injective_same_display_witness : (5 : Int) = 5 :=
  c6_docId_injective_same_display "a" 5 5 rfl
